import Mathlib

/-!
CourseDetails REST API: validation, sanitisation and the course handler.

A shallow embedding of `REST/main.go` and `REST/database/database.go`.

* Go strings are Lean strings, read as sequences of runes (the way `regexp`
  reads them).
* The two compiled patterns are written as lists of pieces (a character class
  with a repetition range) between the anchors `^` and `$`, and run by a small
  backtracking matcher.
* `pol`, the bluemonday policy, is a library value: its `Sanitize` method is a
  field of `Policy`, and every function that sanitises takes the policy as an
  argument. `API_key` is read from the environment and is an argument too.
* The table `CourseInfo` is the list of its rows; the snapshot `courses` is the
  list of key/value pairs of the Go map.
* A request body is given by what `ioutil.ReadAll` and `json.Unmarshal` leave
  in `newCourse`; a response is the status and the chunks written to the
  `http.ResponseWriter`, a JSON encoding being kept as the value encoded.
* The store answers every statement: the only statement that fails is an
  `INSERT` of a `Code` already in the table (the primary key of section 3 of
  the spec), where the source ends in `log.Panic`. Column widths and character
  sets of the table are not modelled, and neither is logging.
* `strconv.Itoa` and `strconv.Atoi` follow the Go library for 64-bit `int`.
-/

namespace CourseAPI

/-! ## Data model (`database.CourseInfo`) -/

/-- The struct `CourseInfo` of `database.go`. -/
structure CourseInfo where
  Code : Int
  Title : String
  Dates : String
  Lecturer : String
  Description : String
  deriving DecidableEq, Repr

/-- The zero value of `CourseInfo` (`var course CourseInfo`). -/
def CourseInfo.zero : CourseInfo := ⟨0, "", "", "", ""⟩

/-! ## Patterns (`regexp.MustCompile` in `init`) -/

/-- One piece of a pattern: a character class repeated between `lo` and `hi`
times (`hi = none` for no upper bound). -/
structure Piece where
  cls : Char → Bool
  lo : Nat
  hi : Option Nat

/-- Whether a piece that has consumed `n` characters may consume one more. -/
def belowHi (n : Nat) : Option Nat → Bool
  | none => true
  | some h => decide (n < h)

/-- Greedy repetition with backtracking: having consumed `n` characters of
class `p`, either stop here (when `lo ≤ n`) and hand the rest to `k`, or take
one more character. -/
def matchRep (p : Char → Bool) (lo : Nat) (hi : Option Nat) (k : List Char → Bool) :
    Nat → List Char → Bool
  | n, [] => decide (lo ≤ n) && k []
  | n, c :: cs =>
    (belowHi n hi && p c && matchRep p lo hi k (n + 1) cs) || (decide (lo ≤ n) && k (c :: cs))

/-- The pieces of a pattern `^ ... $` against the whole text: after the last
piece the text must be exhausted. -/
def matchPieces : List Piece → List Char → Bool
  | [] => fun s => s.isEmpty
  | q :: qs => matchRep q.cls q.lo q.hi (matchPieces qs) 0

/-- A compiled pattern anchored at both ends. -/
structure Regexp where
  pieces : List Piece

/-- The method `(*Regexp).MatchString`. -/
def Regexp.MatchString (re : Regexp) (s : String) : Bool :=
  matchPieces re.pieces s.toList

/-- The class `[0-9]`. -/
def isDigit09 (c : Char) : Bool := decide ('0' ≤ c ∧ c ≤ '9')

/-- The class `\w` of Go regexps: `[0-9A-Za-z_]`. -/
def isWord (c : Char) : Bool :=
  isDigit09 c || decide ('A' ≤ c ∧ c ≤ 'Z') || decide ('a' ≤ c ∧ c ≤ 'z') || c == '_'

/-- The class `[\w'\-,.]`, the first character of a detail. -/
def firstClass (c : Char) : Bool :=
  isWord c || c == Char.ofNat 39 || c == '-' || c == ',' || c == '.'

/-- The characters listed in the negated class of `detailRegExp`, in the order
of the source: `_!¡?÷?¿/\\+=$%ˆ&*(){}|~<>;:[\]`. -/
def denyList : List Char :=
  ['_', '!', '¡', '?', '÷', '?', '¿', '/', Char.ofNat 92, '+', '=', '$', '%', 'ˆ', '&', '*',
   '(', ')', Char.ofNat 123, Char.ofNat 125, '|', '~', '<', '>', ';', ':', '[', ']']

/-- The negated class `[^_!¡?÷?¿/\\+=$%ˆ&*(){}|~<>;:[\]]`. -/
def restClass (c : Char) : Bool := !(denyList.contains c)

/-- The pattern `^[0-9]*$`. -/
def codeRegExp : Regexp := ⟨[⟨isDigit09, 0, none⟩]⟩

/-- The pattern `^[\w'\-,.][^_!¡?÷?¿/\\+=$%ˆ&*(){}|~<>;:[\]]{0,250}$`. -/
def detailRegExp : Regexp := ⟨[⟨firstClass, 1, some 1⟩, ⟨restClass, 0, some 250⟩]⟩

/-! ## `strconv.Itoa` and `strconv.Atoi` -/

/-- The digit table of `strconv` (`"0123456789..."`, base 10 part). -/
def digitChar (d : Nat) : Char := ['0', '1', '2', '3', '4', '5', '6', '7', '8', '9'].getD d '0'

/-- Decimal digits of `u`, most significant first, in front of `acc`
(`formatBits` for base 10); `fuel` bounds the number of digits. -/
def formatBits : Nat → Nat → List Char → List Char
  | 0, _, acc => acc
  | fuel + 1, u, acc =>
    if u < 10 then digitChar u :: acc
    else formatBits fuel (u / 10) (digitChar (u % 10) :: acc)

/-- The function `strconv.Itoa`. -/
def Itoa (i : Int) : String :=
  if i < 0 then String.mk ('-' :: formatBits (i.natAbs + 1) i.natAbs [])
  else String.mk (formatBits (i.natAbs + 1) i.natAbs [])

/-- Value of a run of decimal digits, `none` when a character is not a digit. -/
def parseDigits : Nat → List Char → Option Nat
  | n, [] => some n
  | n, c :: cs => if isDigit09 c then parseDigits (n * 10 + (c.toNat - 48)) cs else none

/-- The largest `int` (64 bits). -/
def maxInt : Int := 2 ^ 63 - 1

/-- The smallest `int` (64 bits). -/
def minInt : Int := -(2 ^ 63)

/-- Sign and digits of the text of an integer: the value, when the syntax is
right (an optional sign, then at least one digit). -/
def parseSigned : List Char → Option Int
  | [] => none
  | c :: cs =>
    if c == '-' then
      (if cs.isEmpty then none else Option.map (fun n : Nat => -(n : Int)) (parseDigits 0 cs))
    else if c == '+' then
      (if cs.isEmpty then none else Option.map (fun n : Nat => (n : Int)) (parseDigits 0 cs))
    else Option.map (fun n : Nat => (n : Int)) (parseDigits 0 (c :: cs))

/-- The function `strconv.Atoi`: the value and whether `err == nil`. A syntax
error gives `0`, a value out of range gives the nearest bound. -/
def Atoi (s : String) : Int × Bool :=
  match parseSigned s.toList with
  | none => (0, false)
  | some v =>
    if v > maxInt then (maxInt, false)
    else if v < minInt then (minInt, false)
    else (v, true)

/-! ## The sanitiser and `validateAndSanitize` -/

/-- The bluemonday policy `pol`: its method `Sanitize`. -/
structure Policy where
  Sanitize : String → String

/-- The function `validateAndSanitize`: the course left behind the pointer and
whether the returned error is `nil`. The first failing check returns at once,
leaving the fields from there on as they were. -/
def validateAndSanitize (pol : Policy) (course : CourseInfo) : CourseInfo × Bool :=
  let codeString := Itoa course.Code
  if !codeRegExp.MatchString codeString then (course, false)
  else
    let codeString := pol.Sanitize codeString
    let course := { course with Code := (Atoi codeString).1 }
    if course.Title != "" && !detailRegExp.MatchString course.Title then (course, false)
    else
      let course := { course with Title := pol.Sanitize course.Title }
      if course.Dates != "" && !detailRegExp.MatchString course.Dates then (course, false)
      else
        let course := { course with Dates := pol.Sanitize course.Dates }
        if course.Lecturer != "" && !detailRegExp.MatchString course.Lecturer then (course, false)
        else
          let course := { course with Lecturer := pol.Sanitize course.Lecturer }
          if course.Description != "" && !detailRegExp.MatchString course.Description then
            (course, false)
          else
            ({ course with Description := pol.Sanitize course.Description }, true)

/-- What the handlers rely on from the HTML policy: text without markup, the
empty string and a run of decimal digits, is returned as it is. -/
structure Policy.KeepsPlain (pol : Policy) : Prop where
  empty : pol.Sanitize "" = ""
  digits : ∀ s : String, (∀ c ∈ s.toList, isDigit09 c = true) → pol.Sanitize s = s

/-- A policy for text without markup, which the HTML policy returns as it is. -/
def plainPolicy : Policy := ⟨fun s => s⟩

/-- A policy that escapes the apostrophe as `&#39;`, the way the HTML policy
writes out a text node, and returns other text as it is. -/
def escapePolicy : Policy :=
  ⟨fun s => String.mk (s.toList.flatMap fun c => if c = Char.ofNat 39 then "&#39;".toList else [c])⟩

/-! ## The table `CourseInfo` (`database.go`) -/

/-- The rows of table `CourseInfo`, in table order. -/
abbrev Table := List CourseInfo

/-- The function `RowExists`: `SELECT EXISTS (SELECT 1 ... WHERE code = ...)`. -/
def RowExists (db : Table) (code : Int) : Bool := db.any fun r => r.Code == code

/-- The function `GetRecord`: every row of the result is scanned into `course`
in turn; no row leaves the zero value. -/
def GetRecord (db : Table) (Code : Int) : CourseInfo :=
  db.foldl (fun course r => if r.Code = Code then r else course) CourseInfo.zero

/-- The map `courses` of `main.go`, as a list of its key/value pairs. -/
abbrev Snapshot := List (Int × CourseInfo)

/-- Whether `_, ok := courses[code]` finds the key. -/
def Snapshot.hasKey (m : Snapshot) (code : Int) : Bool := m.any fun kv => kv.1 == code

/-- The assignment `courses[k] = v`. -/
def Snapshot.set (m : Snapshot) (k : Int) (v : CourseInfo) : Snapshot :=
  if m.hasKey k then m.map fun kv => if kv.1 = k then (k, v) else kv else m ++ [(k, v)]

/-- The function `GetRecords`: one map entry per row, keyed by its `Code`. -/
def GetRecords (db : Table) : Snapshot :=
  db.foldl (fun courses course => courses.set course.Code course) []

/-- The function `DeleteRecord`: `DELETE FROM CourseInfo WHERE Code = ?`. -/
def DeleteRecord (db : Table) (Code : Int) : Table := db.filter fun r => r.Code != Code

/-- The function `EditRecord`: `UPDATE CourseInfo SET ... WHERE Code=?`. -/
def EditRecord (db : Table) (Code : Int) (Title Dates Lecturer Description : String) : Table :=
  db.map fun r => if r.Code = Code then ⟨r.Code, Title, Dates, Lecturer, Description⟩ else r

/-- Modelled from the spec: the schema of table `CourseInfo` is not in the
sources; section 3 makes `Code` its primary key, so a statement that would add
a second row with a `Code` already in the table is refused. -/
def primaryKeyFree (db : Table) (Code : Int) : Bool := !RowExists db Code

/-- The function `InsertRecord`: `INSERT INTO CourseInfo ... VALUES (...)`;
`none` when the statement fails, where the source calls `log.Panic`. -/
def InsertRecord (db : Table) (Code : Int) (Title Dates Lecturer Description : String) :
    Option Table :=
  if primaryKeyFree db Code then some (db ++ [⟨Code, Title, Dates, Lecturer, Description⟩])
  else none

/-! ## Requests and responses -/

/-- What `ioutil.ReadAll` and `json.Unmarshal` make of a request body:
`unreadable` when `ReadAll` fails, `malformed` when the text is not JSON
(`Unmarshal` then leaves `newCourse` untouched), `decoded c` when `Unmarshal`
leaves `c` in `newCourse`. -/
inductive Body where
  | unreadable
  | malformed
  | decoded (c : CourseInfo)
  deriving DecidableEq, Repr

/-- The value of `newCourse` after `json.Unmarshal(reqBody, &newCourse)`. -/
def Body.unmarshal : Body → CourseInfo
  | .decoded c => c
  | _ => CourseInfo.zero

/-- The parts of `*http.Request` that the handlers read. -/
structure Request where
  Method : String
  query : List (String × String)
  courseid : String
  contentType : String
  body : Body
  deriving DecidableEq, Repr

/-- The lookup `v["key"]` on `r.URL.Query()`: the values given for the key. -/
def queryGet (query : List (String × String)) (key : String) : List String :=
  (query.filter fun kv => kv.1 == key).map fun kv => kv.2

/-- What is written to the response: a text, or the JSON encoding of a course
or of the map of courses. -/
inductive Chunk where
  | text (s : String)
  | course (c : CourseInfo)
  | courses (m : Snapshot)
  deriving DecidableEq, Repr

/-- The `http.ResponseWriter`: the status sent, if any yet, and the body. -/
structure ResponseWriter where
  status : Option Nat
  body : List Chunk
  deriving DecidableEq, Repr

/-- The method `WriteHeader`: the first status sent stands. -/
def ResponseWriter.WriteHeader (w : ResponseWriter) (code : Nat) : ResponseWriter :=
  if w.status.isSome then w else { w with status := some code }

/-- The method `Write`: sends status 200 first when none was sent. -/
def ResponseWriter.Write (w : ResponseWriter) (ch : Chunk) : ResponseWriter :=
  { status := some (w.status.getD 200), body := w.body ++ [ch] }

/-- The status the client receives: 200 when the handler sent none. -/
def ResponseWriter.code (w : ResponseWriter) : Nat := w.status.getD 200

/-- The package variables the handlers share: the table behind `db` and the
map `courses`. -/
structure Server where
  db : Table
  courses : Snapshot
  deriving DecidableEq, Repr

/-- The end of a handler call: the state, the response, and whether the call
ended in `log.Panic`. -/
structure Result where
  server : Server
  w : ResponseWriter
  panicked : Bool
  deriving DecidableEq, Repr

/-- Control after a block of the handler: fall through to the next statement,
`return`, or panic. -/
inductive Flow where
  | next (s : Server) (w : ResponseWriter)
  | ret (s : Server) (w : ResponseWriter)
  | panic (s : Server) (w : ResponseWriter)

/-- The result of a handler whose last block ended in `f`. -/
def Flow.result : Flow → Result
  | .next s w => ⟨s, w, false⟩
  | .ret s w => ⟨s, w, false⟩
  | .panic s w => ⟨s, w, true⟩

/-- Run the next block unless the handler has returned or panicked. -/
def Flow.andThen (f : Flow) (g : Server → ResponseWriter → Flow) : Flow :=
  match f with
  | .next s w => g s w
  | other => other

/-! ## The handlers (`main.go`) -/

/-- The function `validKey`: whether the key is right, and the response. -/
def validKey (API_key : String) (w : ResponseWriter) (r : Request) : Bool × ResponseWriter :=
  match queryGet r.query "key" with
  | key0 :: _ =>
    if key0 = API_key then (true, w)
    else (false, (w.WriteHeader 404).Write (.text "401 - Invalid key"))
  | [] => (false, (w.WriteHeader 404).Write (.text "401 - Please supply access key"))

/-- The function `allcourses`. The loop over `courses` sanitises its loop
variable `v`, a copy of the map value: the map that is encoded is the one
`GetRecords` returned. -/
def allcourses (pol : Policy) (API_key : String) (s : Server) (r : Request) : Result :=
  match validKey API_key ⟨none, []⟩ r with
  | (false, w) => ⟨s, w, false⟩
  | (true, w) =>
    let w := w.Write (.text "List of all courses")
    let courses := GetRecords s.db
    let _copies := courses.map fun kv => (validateAndSanitize pol kv.2).1
    ⟨{ s with courses := courses }, w.Write (.courses courses), false⟩

/-- The block `if r.Method == "GET"` of `course`. -/
def getBlock (r : Request) (code : Int) (course : CourseInfo) (s : Server)
    (w : ResponseWriter) : Flow :=
  if r.Method = "GET" then
    if RowExists s.db code then .next s (w.Write (.course course))
    else .next s ((w.WriteHeader 404).Write (.text "404 - No course found"))
  else .next s w

/-- The block `if r.Method == "DELETE"` of `course`. -/
def deleteBlock (r : Request) (code : Int) (s : Server) (w : ResponseWriter) : Flow :=
  if r.Method = "DELETE" then
    if RowExists s.db code then
      .next { s with db := DeleteRecord s.db code }
        ((w.WriteHeader 202).Write (.text ("202 - Course deleted: " ++ r.courseid)))
    else .next s ((w.WriteHeader 404).Write (.text "404 - No course found"))
  else .next s w

/-- The test `newCourse.Title == "" || newCourse.Dates == "" || ...`. -/
def anyEmpty (c : CourseInfo) : Bool :=
  c.Title == "" || c.Dates == "" || c.Lecturer == "" || c.Description == ""

/-- The block `if r.Method == "POST"` of `course`. The error returned by
`validateAndSanitize` is not looked at. -/
def postBlock (pol : Policy) (r : Request) (code : Int) (s : Server) (w : ResponseWriter) :
    Flow :=
  if r.Method = "POST" then
    match r.body with
    | .unreadable =>
      .next s ((w.WriteHeader 422).Write
        (.text ("422 - Please supply course information " ++ "in JSON format")))
    | body =>
      let newCourse := (validateAndSanitize pol body.unmarshal).1
      if !s.courses.hasKey code then
        if anyEmpty newCourse then
          .ret s ((w.WriteHeader 422).Write
            (.text ("422 - Please supply course" ++ "information " ++ "in JSON format")))
        else
          match InsertRecord s.db newCourse.Code newCourse.Title newCourse.Dates
              newCourse.Lecturer newCourse.Description with
          | none => .panic s w
          | some db =>
            .next { s with db := db }
              ((w.WriteHeader 201).Write (.text ("201 - Course added: " ++ r.courseid)))
      else .next s ((w.WriteHeader 409).Write (.text "409 - Duplicate course ID"))
  else .next s w

/-- The merge of the PUT update: an empty field of `newCourse` takes the value
of `course`. -/
def mergeEmpty (newCourse course : CourseInfo) : CourseInfo :=
  let newCourse :=
    if newCourse.Title = "" then { newCourse with Title := course.Title } else newCourse
  let newCourse :=
    if newCourse.Dates = "" then { newCourse with Dates := course.Dates } else newCourse
  let newCourse :=
    if newCourse.Lecturer = "" then { newCourse with Lecturer := course.Lecturer } else newCourse
  if newCourse.Description = "" then { newCourse with Description := course.Description }
  else newCourse

/-- The block `if r.Method == "PUT"` of `course`; `course` is the record read
with the path identifier at the start of the handler. -/
def putBlock (pol : Policy) (r : Request) (course : CourseInfo) (s : Server)
    (w : ResponseWriter) : Flow :=
  if r.Method = "PUT" then
    match r.body with
    | .unreadable =>
      .next s ((w.WriteHeader 422).Write
        (.text ("422 - Please supply course information " ++ "in JSON format")))
    | body =>
      let newCourse := (validateAndSanitize pol body.unmarshal).1
      if !RowExists s.db newCourse.Code then
        if anyEmpty newCourse then
          .ret s ((w.WriteHeader 422).Write
            (.text ("422 - Please supply course" ++ "information " ++ "in JSON format")))
        else
          match InsertRecord s.db newCourse.Code newCourse.Title newCourse.Dates
              newCourse.Lecturer newCourse.Description with
          | none => .panic s w
          | some db =>
            .next { s with db := db }
              ((w.WriteHeader 201).Write (.text ("201 - Course added: " ++ r.courseid)))
      else
        let newCourse := mergeEmpty newCourse course
        let db := EditRecord s.db newCourse.Code newCourse.Title newCourse.Dates
          newCourse.Lecturer newCourse.Description
        .next { s with db := db }
          ((w.WriteHeader 202).Write (.text ("202 - Course updated: " ++ r.courseid)))
  else .next s w

/-- The function `course`, the handler of `/api/v1/courses/{courseid}`. -/
def course (pol : Policy) (API_key : String) (s : Server) (r : Request) : Result :=
  match validKey API_key ⟨none, []⟩ r with
  | (false, w) => ⟨s, w, false⟩
  | (true, w) =>
    match Atoi r.courseid with
    | (_, false) =>
      ⟨s, (w.WriteHeader 400).Write
        (.text "400 - Course data in wrong format, needs to be integer value."), false⟩
    | (code, true) =>
      let course := (validateAndSanitize pol (GetRecord s.db code)).1
      (((getBlock r code course s w).andThen (deleteBlock r code)).andThen fun s w =>
        if r.contentType = "application/json" then
          (postBlock pol r code s w).andThen (putBlock pol r course)
        else .next s w).result

/-! ## Statements used by the theorems -/

/-- One text field passes its check in `validateAndSanitize`. -/
def fieldOk (s : String) : Bool := !(s != "" && !detailRegExp.MatchString s)

/-- The shape of a text that the detail pattern accepts: one first character of
the first class, then at most 250 characters outside the deny list. -/
def DetailShape (s : String) : Prop :=
  ∃ c rest, s.toList = c :: rest ∧
    (isWord c = true ∨ c = Char.ofNat 39 ∨ c = '-' ∨ c = ',' ∨ c = '.') ∧
    rest.length ≤ 250 ∧ ∀ x ∈ rest, x ∉ denyList

/-- The sanitiser gives the same text when applied a second time. -/
def Policy.Idempotent (pol : Policy) : Prop :=
  ∀ x : String, pol.Sanitize (pol.Sanitize x) = pol.Sanitize x

/-- The sanitiser does not empty a text that the detail pattern accepts (such
a text starts with a word character or one of `' - , .` and holds no angle
bracket). -/
def Policy.KeepsDetail (pol : Policy) : Prop :=
  ∀ x : String, DetailShape x → pol.Sanitize x ≠ ""

/-- The names of the four text fields of a course. -/
inductive Field where
  | Title
  | Dates
  | Lecturer
  | Description
  deriving DecidableEq, Repr

/-- The value of a text field of a course. -/
def CourseInfo.text (c : CourseInfo) : Field → String
  | .Title => c.Title
  | .Dates => c.Dates
  | .Lecturer => c.Lecturer
  | .Description => c.Description

/-- A second course for the examples. -/
def databases : CourseInfo := ⟨102, "Databases", "2023", "Dr. B", "Storage"⟩

/-- A course whose title is markup that the detail pattern rejects. -/
def scriptCourse (code : Int) : CourseInfo :=
  ⟨code, "<script>alert(1)</script>", "2024", "Dr. A", "Intro"⟩

/-- The course of the scenarios of the spec. -/
def algorithms : CourseInfo := ⟨101, "Algorithms", "2024", "Dr. A", "Intro"⟩

/-- A request to `/api/v1/courses/{courseid}?key=...` with the JSON content
type. -/
def jsonRequest (method key courseid : String) (body : Body) : Request :=
  ⟨method, [("key", key)], courseid, "application/json", body⟩

/-- A request to `/api/v1/courses/{courseid}?key=...` without a body. -/
def plainRequest (method key courseid : String) : Request :=
  ⟨method, [("key", key)], courseid, "", .malformed⟩

/-! ## The patterns -/

theorem matchRep_star_end (p : Char → Bool) (l : List Char) :
    ∀ n, matchRep p 0 none (fun s => s.isEmpty) n l = true ↔ ∀ x ∈ l, p x = true := by
  induction l with
  | nil => intro n; simp [matchRep]
  | cons c cs ih => intro n; simp [matchRep, belowHi, ih]

theorem matchRep_bounded_end (p : Char → Bool) (h : Nat) (l : List Char) :
    ∀ n, matchRep p 0 (some h) (fun s => s.isEmpty) n l = true ↔
      (l = [] ∨ n + l.length ≤ h) ∧ ∀ x ∈ l, p x = true := by
  induction l with
  | nil => intro n; simp [matchRep]
  | cons c cs ih =>
    intro n
    simp only [matchRep, belowHi, ih, List.isEmpty_cons, Bool.and_false, Bool.or_false,
      Bool.and_eq_true, decide_eq_true_eq, List.length_cons, List.mem_cons, forall_eq_or_imp]
    constructor
    · rintro ⟨⟨hn, hc⟩, hlen, hall⟩
      refine ⟨Or.inr ?_, hc, hall⟩
      rcases hlen with rfl | hlen
      · simp; omega
      · omega
    · rintro ⟨hlen, hc, hall⟩
      simp only [reduceCtorEq, false_or] at hlen
      exact ⟨⟨by omega, hc⟩, Or.inr (by omega), hall⟩

theorem matchRep_once (p : Char → Bool) (k : List Char → Bool) (l : List Char) :
    matchRep p 1 (some 1) k 0 l = true ↔ ∃ c rest, l = c :: rest ∧ p c = true ∧ k rest = true := by
  cases l with
  | nil => simp [matchRep]
  | cons c cs =>
    have hk : matchRep p 1 (some 1) k 1 cs = k cs := by
      cases cs <;> simp [matchRep, belowHi]
    simp only [matchRep, belowHi, hk]
    constructor
    · intro h
      simp only [Nat.lt_irrefl, decide_False, Bool.false_and, Bool.or_false, Bool.and_eq_true,
        Nat.lt_one_iff, decide_True, Bool.true_and, Nat.reduceLeDiff] at h
      exact ⟨c, cs, rfl, h.1, h.2⟩
    · rintro ⟨c2, rest, heq, hp, hkr⟩
      cases heq
      simp [hp, hkr]

theorem codeRegExp_match (s : String) :
    codeRegExp.MatchString s = true ↔ ∀ c ∈ s.toList, isDigit09 c = true := by
  simp only [Regexp.MatchString, codeRegExp, matchPieces]
  exact matchRep_star_end isDigit09 s.toList 0

theorem detailRegExp_match (s : String) :
    detailRegExp.MatchString s = true ↔ DetailShape s := by
  simp only [Regexp.MatchString, detailRegExp, matchPieces, DetailShape]
  rw [matchRep_once]
  constructor
  · rintro ⟨c, rest, hs, hc, hk⟩
    rw [matchRep_bounded_end] at hk
    refine ⟨c, rest, hs, ?_, ?_, ?_⟩
    · simpa [firstClass, or_assoc] using hc
    · rcases hk.1 with h | h
      · simp [h]
      · omega
    · intro x hx
      have := hk.2 x hx
      simpa [restClass] using this
  · rintro ⟨c, rest, hs, hc, hlen, hall⟩
    refine ⟨c, rest, hs, ?_, ?_⟩
    · simpa [firstClass, or_assoc] using hc
    · rw [matchRep_bounded_end]
      refine ⟨Or.inr (by omega), ?_⟩
      intro x hx
      simpa [restClass] using hall x hx

/-! ## `Itoa` and `Atoi` -/

theorem digitChar_isDigit (d : Nat) : isDigit09 (digitChar d) = true := by
  unfold digitChar
  rcases d with _ | _ | _ | _ | _ | _ | _ | _ | _ | _ | d <;> simp [List.getD] <;> decide

theorem digitChar_toNat (d : Nat) (h : d < 10) : (digitChar d).toNat - 48 = d := by
  unfold digitChar
  interval_cases d <;> rfl

theorem formatBits_digits (fuel : Nat) :
    ∀ (u : Nat) (acc : List Char), (∀ c ∈ acc, isDigit09 c = true) →
      ∀ c ∈ formatBits fuel u acc, isDigit09 c = true := by
  induction fuel with
  | zero => intro u acc h; simpa [formatBits] using h
  | succ fuel ih =>
    intro u acc h
    unfold formatBits
    split
    · intro c hc
      rcases List.mem_cons.1 hc with rfl | hc
      · exact digitChar_isDigit u
      · exact h c hc
    · apply ih
      intro c hc
      rcases List.mem_cons.1 hc with rfl | hc
      · exact digitChar_isDigit _
      · exact h c hc

theorem formatBits_ne_nil (fuel u : Nat) (acc : List Char) :
    formatBits (fuel + 1) u acc ≠ [] := by
  induction fuel generalizing u acc with
  | zero => unfold formatBits; split <;> simp [formatBits]
  | succ fuel ih =>
    unfold formatBits
    split
    · simp
    · exact ih _ _

theorem parseDigits_formatBits (fuel : Nat) :
    ∀ (u : Nat) (acc : List Char) (a : Nat), u < fuel →
      ∃ k, parseDigits a (formatBits fuel u acc) = parseDigits (a * 10 ^ k + u) acc := by
  induction fuel with
  | zero => intro u acc a h; omega
  | succ fuel ih =>
    intro u acc a h
    unfold formatBits
    split
    · rename_i hu
      refine ⟨1, ?_⟩
      simp [parseDigits, digitChar_isDigit, digitChar_toNat u hu]
    · rename_i hu
      obtain ⟨k, hk⟩ := ih (u / 10) (digitChar (u % 10) :: acc) a (by omega)
      refine ⟨k + 1, ?_⟩
      rw [hk]
      simp only [parseDigits, digitChar_isDigit, if_true,
        digitChar_toNat (u % 10) (Nat.mod_lt _ (by decide))]
      congr 1
      rw [pow_succ]
      have := Nat.div_add_mod u 10
      nlinarith [this]

theorem Itoa_match (i : Int) : codeRegExp.MatchString (Itoa i) = true ↔ 0 ≤ i := by
  rw [codeRegExp_match]
  unfold Itoa
  split
  · rename_i h
    constructor
    · intro hall
      have := hall '-' (by simp)
      exact absurd this (by decide)
    · intro h0; omega
  · rename_i h
    constructor
    · intro _; omega
    · intro _
      exact formatBits_digits _ _ [] (by simp)

theorem Itoa_digits (i : Int) (h : 0 ≤ i) : ∀ c ∈ (Itoa i).toList, isDigit09 c = true :=
  (codeRegExp_match _).1 ((Itoa_match i).2 h)

theorem parseSigned_digits (l : List Char) (hne : l ≠ [])
    (hall : ∀ c ∈ l, isDigit09 c = true) :
    parseSigned l = Option.map (fun n : Nat => (n : Int)) (parseDigits 0 l) := by
  cases l with
  | nil => exact absurd rfl hne
  | cons c cs =>
    have hc := hall c (by simp)
    have h1 : (c == '-') = false := by
      rw [beq_eq_false_iff_ne]; rintro rfl; exact absurd hc (by decide)
    have h2 : (c == '+') = false := by
      rw [beq_eq_false_iff_ne]; rintro rfl; exact absurd hc (by decide)
    simp [parseSigned, h1, h2]

theorem Atoi_Itoa (i : Int) (h0 : 0 ≤ i) (h1 : i ≤ maxInt) : Atoi (Itoa i) = (i, true) := by
  have hI : Itoa i = String.mk (formatBits (i.natAbs + 1) i.natAbs []) := by
    unfold Itoa; rw [if_neg (by omega)]
  have hd := Itoa_digits i h0
  rw [hI] at hd ⊢
  obtain ⟨k, hk⟩ := parseDigits_formatBits (i.natAbs + 1) i.natAbs [] 0 (by omega)
  simp only [String.toList] at hd
  have hv : ((0 * 10 ^ k + i.natAbs : Nat) : Int) = i := by
    simp only [Nat.zero_mul, Nat.zero_add]; omega
  have hp : parseSigned (formatBits (i.natAbs + 1) i.natAbs []) = some i := by
    rw [parseSigned_digits _ (formatBits_ne_nil _ _ _) hd, hk, parseDigits, Option.map_some', hv]
  have hmin : ¬ i < minInt := by unfold minInt; omega
  have hmax : ¬ i > maxInt := by omega
  simp only [Atoi, String.toList, hp, if_neg hmax, if_neg hmin]

/-! ## `validateAndSanitize` -/

theorem fieldOk_iff (s : String) : fieldOk s = true ↔ s = "" ∨ DetailShape s := by
  rw [← detailRegExp_match]
  unfold fieldOk
  by_cases h : s = "" <;> simp [h]

theorem validateAndSanitize_snd (pol : Policy) (c : CourseInfo) :
    (validateAndSanitize pol c).2 =
      (codeRegExp.MatchString (Itoa c.Code) && fieldOk c.Title && fieldOk c.Dates &&
        fieldOk c.Lecturer && fieldOk c.Description) := by
  unfold validateAndSanitize fieldOk
  simp only []
  split_ifs <;> simp_all
  tauto

theorem validateAndSanitize_ok (pol : Policy) (c : CourseInfo)
    (h : (validateAndSanitize pol c).2 = true) :
    (validateAndSanitize pol c).1 =
      ⟨(Atoi (pol.Sanitize (Itoa c.Code))).1, pol.Sanitize c.Title, pol.Sanitize c.Dates,
        pol.Sanitize c.Lecturer, pol.Sanitize c.Description⟩ := by
  revert h
  unfold validateAndSanitize
  simp only []
  split_ifs <;> simp

theorem validateAndSanitize_badCode (pol : Policy) (c : CourseInfo) (h : c.Code < 0) :
    validateAndSanitize pol c = (c, false) := by
  have hm : codeRegExp.MatchString (Itoa c.Code) = false := by
    rw [Bool.eq_false_iff, Ne, Itoa_match]; omega
  unfold validateAndSanitize
  simp [hm]

theorem Itoa_ne_empty (i : Int) : Itoa i ≠ "" := by
  unfold Itoa
  split
  · intro h
    have := congrArg String.toList h
    simp at this
  · intro h
    have := congrArg String.toList h
    exact formatBits_ne_nil _ _ _ (by simpa using this)

theorem DetailShape_length (s : String) (h : DetailShape s) : s.length ≤ 251 := by
  obtain ⟨c, rest, hs, _, hlen, _⟩ := h
  have : s.length = (c :: rest).length := by rw [← hs]; rfl
  rw [this, List.length_cons]
  omega

theorem denied_not_first : ∀ x ∈ denyList, x ≠ '_' → firstClass x = false := by decide

theorem DetailShape_no_denied (s : String) (i : Nat) (x : Char)
    (hx : s.toList[i]? = some x) (hd : x ∈ denyList) (hpos : i ≠ 0 ∨ x ≠ '_') :
    ¬ DetailShape s := by
  rintro ⟨c, rest, hs, hc, _, hall⟩
  rw [hs] at hx
  cases i with
  | zero =>
    simp only [List.getElem?_cons_zero, Option.some.injEq] at hx
    subst hx
    have hne : c ≠ '_' := by
      rcases hpos with h | h
      · exact absurd rfl h
      · exact h
    have hf := denied_not_first c hd hne
    have : firstClass c = true := by simpa [firstClass, or_assoc] using hc
    rw [hf] at this
    exact absurd this (by decide)
  | succ j =>
    simp only [List.getElem?_cons_succ] at hx
    exact hall x (List.getElem?_mem hx) hd

theorem fieldOk_false_of_denied (s : String) (i : Nat) (x : Char)
    (hx : s.toList[i]? = some x) (hd : x ∈ denyList) (hpos : i ≠ 0 ∨ x ≠ '_') :
    fieldOk s = false := by
  rw [Bool.eq_false_iff, Ne, fieldOk_iff]
  rintro (h | h)
  · rw [h] at hx
    simp at hx
  · exact DetailShape_no_denied s i x hx hd hpos h

/-! ## Validation rules (C6, C7) -/

/-- C6, as the spec states it, fails: the underscore is on the deny list, yet
a text that starts with it matches the detail pattern (the first class holds
the word characters, the underscore among them), and a course with such a
title passes `validateAndSanitize`. -/
theorem underscore_first_accepted :
    '_' ∈ denyList ∧ detailRegExp.MatchString "_" = true ∧
      detailRegExp.MatchString "_2024" = true ∧
      (validateAndSanitize plainPolicy ⟨101, "_2024", "", "", ""⟩).2 = true := by
  decide

/-- C6, amended: a text field holding a deny-listed symbol at a position after
the first, or a deny-listed symbol other than the underscore at the first
position, does not match the detail pattern, and `validateAndSanitize` returns
an error for every course that has such a Title, Dates, Lecturer or
Description. -/
theorem denied_symbol_rejected (pol : Policy) (c : CourseInfo) (s : String) (i : Nat)
    (x : Char) (hx : s.toList[i]? = some x) (hd : x ∈ denyList) (hpos : i ≠ 0 ∨ x ≠ '_')
    (hf : s = c.Title ∨ s = c.Dates ∨ s = c.Lecturer ∨ s = c.Description) :
    detailRegExp.MatchString s = false ∧ (validateAndSanitize pol c).2 = false := by
  have hok := fieldOk_false_of_denied s i x hx hd hpos
  constructor
  · rw [Bool.eq_false_iff, Ne, detailRegExp_match]
    exact DetailShape_no_denied s i x hx hd hpos
  · rw [validateAndSanitize_snd]
    rcases hf with h | h | h | h <;> rw [h] at hok <;> simp [hok]

/-- Witness of C6, amended: the title `2024;` holds `;` at position 4. -/
theorem denied_symbol_rejected_witness :
    detailRegExp.MatchString "2024;" = false ∧
      (validateAndSanitize plainPolicy ⟨101, "2024;", "", "", ""⟩).2 = false :=
  denied_symbol_rejected plainPolicy ⟨101, "2024;", "", "", ""⟩ "2024;" 4 ';'
    (by decide) (by decide) (by decide) (Or.inl rfl)

/-- C7: `validateAndSanitize` returns no error exactly when the decimal text of
Code is all digits and each of Title, Dates, Lecturer, Description is empty or
one first character out of word character, apostrophe, hyphen, comma, period
followed by at most 250 characters outside the deny list; the text of Code is
all digits exactly when Code is not negative, and is never empty; a text field
of more than 251 characters is rejected. -/
theorem validateAndSanitize_accepts_iff (pol : Policy) (c : CourseInfo) :
    ((validateAndSanitize pol c).2 = true ↔
      (∀ ch ∈ (Itoa c.Code).toList, isDigit09 ch = true) ∧
      (c.Title = "" ∨ DetailShape c.Title) ∧ (c.Dates = "" ∨ DetailShape c.Dates) ∧
      (c.Lecturer = "" ∨ DetailShape c.Lecturer) ∧
      (c.Description = "" ∨ DetailShape c.Description)) ∧
    ((∀ ch ∈ (Itoa c.Code).toList, isDigit09 ch = true) ↔ 0 ≤ c.Code) ∧
    Itoa c.Code ≠ "" ∧
    (∀ s ∈ [c.Title, c.Dates, c.Lecturer, c.Description], 251 < s.length →
      (validateAndSanitize pol c).2 = false) := by
  have hiff : (validateAndSanitize pol c).2 = true ↔
      (∀ ch ∈ (Itoa c.Code).toList, isDigit09 ch = true) ∧
      (c.Title = "" ∨ DetailShape c.Title) ∧ (c.Dates = "" ∨ DetailShape c.Dates) ∧
      (c.Lecturer = "" ∨ DetailShape c.Lecturer) ∧
      (c.Description = "" ∨ DetailShape c.Description) := by
    rw [validateAndSanitize_snd]
    simp only [Bool.and_eq_true, fieldOk_iff, codeRegExp_match, and_assoc]
  refine ⟨hiff, ?_, Itoa_ne_empty _, ?_⟩
  · rw [← codeRegExp_match, Itoa_match]
  · intro s hs hlen
    rw [Bool.eq_false_iff, Ne, hiff]
    rintro ⟨-, h1, h2, h3, h4⟩
    have hbad : ¬ (s = "" ∨ DetailShape s) := by
      rintro (h | h)
      · rw [h] at hlen
        exact absurd hlen (by decide)
      · have := DetailShape_length s h
        omega
    simp only [List.mem_cons, List.mem_singleton, List.not_mem_nil, or_false] at hs
    rcases hs with rfl | rfl | rfl | rfl
    · exact hbad h1
    · exact hbad h2
    · exact hbad h3
    · exact hbad h4

/-! ## The table -/

theorem RowExists_DeleteRecord (db : Table) (code : Int) :
    RowExists (DeleteRecord db code) code = false := by
  simp [RowExists, DeleteRecord]

theorem mem_DeleteRecord (db : Table) (code : Int) (row : CourseInfo) :
    row ∈ DeleteRecord db code ↔ row ∈ db ∧ row.Code ≠ code := by
  simp [DeleteRecord]

theorem foldl_pick_filter (code k : Int) (hk : k ≠ code) (db : Table) :
    ∀ init : CourseInfo,
      (db.filter fun r => r.Code != code).foldl (fun course r => if r.Code = k then r else course)
          init =
        db.foldl (fun course r => if r.Code = k then r else course) init := by
  induction db with
  | nil => intro init; rfl
  | cons r rs ih =>
    intro init
    by_cases hr : r.Code = code
    · have hrk : r.Code ≠ k := by rw [hr]; exact fun h => hk h.symm
      rw [List.filter_cons_of_neg (by simpa using hr), List.foldl_cons, if_neg hrk]
      exact ih init
    · rw [List.filter_cons_of_pos (by simpa using hr), List.foldl_cons, List.foldl_cons]
      exact ih _

theorem GetRecord_DeleteRecord (db : Table) (code k : Int) (hk : k ≠ code) :
    GetRecord (DeleteRecord db code) k = GetRecord db k :=
  foldl_pick_filter code k hk db CourseInfo.zero

theorem RowExists_DeleteRecord_other (db : Table) (code k : Int) (hk : k ≠ code) :
    RowExists (DeleteRecord db code) k = RowExists db k := by
  rw [Bool.eq_iff_iff]
  simp only [RowExists, DeleteRecord, List.any_eq_true, List.mem_filter, beq_iff_eq,
    bne_iff_ne]
  constructor
  · rintro ⟨x, ⟨hx, _⟩, hxk⟩
    exact ⟨x, hx, hxk⟩
  · rintro ⟨x, hx, hxk⟩
    exact ⟨x, ⟨hx, by rw [hxk]; exact hk⟩, hxk⟩

/-! ## The access gate (C8) -/

theorem validKey_ok (API_key : String) (w : ResponseWriter) (r : Request) (rest : List String)
    (h : queryGet r.query "key" = API_key :: rest) : validKey API_key w r = (true, w) := by
  simp [validKey, h]

/-- C8: `validKey` returns true exactly when the key parameter is present and
its first value is the configured secret. When the parameter is absent, both
handlers answer 404 with body "401 - Please supply access key"; when its first
value differs, 404 with body "401 - Invalid key". In both cases the result is
this fixed response with the store and the snapshot unchanged, whatever the
method, path identifier, header and body of the request. -/
theorem validKey_gate (pol : Policy) (API_key : String) (s : Server) (r : Request) :
    ((validKey API_key ⟨none, []⟩ r).1 = true ↔
      ∃ v rest, queryGet r.query "key" = v :: rest ∧ v = API_key) ∧
    (queryGet r.query "key" = [] →
      course pol API_key s r =
        ⟨s, ⟨some 404, [.text "401 - Please supply access key"]⟩, false⟩ ∧
      allcourses pol API_key s r =
        ⟨s, ⟨some 404, [.text "401 - Please supply access key"]⟩, false⟩) ∧
    (∀ v rest, queryGet r.query "key" = v :: rest → v ≠ API_key →
      course pol API_key s r = ⟨s, ⟨some 404, [.text "401 - Invalid key"]⟩, false⟩ ∧
      allcourses pol API_key s r = ⟨s, ⟨some 404, [.text "401 - Invalid key"]⟩, false⟩) := by
  refine ⟨?_, ?_, ?_⟩
  · unfold validKey
    split
    · rename_i key0 rest hq
      by_cases hk : key0 = API_key <;> simp_all
    · simp_all
  · intro hq
    simp [course, allcourses, validKey, hq, ResponseWriter.WriteHeader, ResponseWriter.Write]
  · intro v rest hq hv
    simp [course, allcourses, validKey, hq, hv, ResponseWriter.WriteHeader,
      ResponseWriter.Write]

/-- The gate of C8 at work: a request without a key, and one with a wrong key. -/
theorem validKey_gate_witness :
    course plainPolicy "secret" ⟨[⟨101, "Algorithms", "2024", "Dr. A", "Intro"⟩], []⟩
        ⟨"DELETE", [], "101", "", .malformed⟩ =
      ⟨⟨[⟨101, "Algorithms", "2024", "Dr. A", "Intro"⟩], []⟩,
        ⟨some 404, [.text "401 - Please supply access key"]⟩, false⟩ ∧
    course plainPolicy "secret" ⟨[⟨101, "Algorithms", "2024", "Dr. A", "Intro"⟩], []⟩
        ⟨"DELETE", [("key", "guess")], "101", "", .malformed⟩ =
      ⟨⟨[⟨101, "Algorithms", "2024", "Dr. A", "Intro"⟩], []⟩,
        ⟨some 404, [.text "401 - Invalid key"]⟩, false⟩ :=
  ⟨((validKey_gate plainPolicy "secret" _ ⟨"DELETE", [], "101", "", .malformed⟩).2.1
      (by decide)).1,
   ((validKey_gate plainPolicy "secret" _
      ⟨"DELETE", [("key", "guess")], "101", "", .malformed⟩).2.2 "guess" [] (by decide)
      (by decide)).1⟩

/-! ## DELETE (C10) -/

/-- C10: a DELETE request with a valid key and an integer identifier answers
404 and leaves the store as it was when the identifier is not in the store;
when it is, it answers 202, the identifier is no longer in the store, and the
rows of every other identifier are the ones that were there. -/
theorem delete_correct (pol : Policy) (API_key : String) (s : Server) (r : Request)
    (rest : List String) (code : Int)
    (hkey : queryGet r.query "key" = API_key :: rest)
    (hid : Atoi r.courseid = (code, true))
    (hm : r.Method = "DELETE") :
    (RowExists s.db code = false →
      (course pol API_key s r).w.status = some 404 ∧
      (course pol API_key s r).w.body = [.text "404 - No course found"] ∧
      (course pol API_key s r).server = s ∧
      (course pol API_key s r).panicked = false) ∧
    (RowExists s.db code = true →
      (course pol API_key s r).w.status = some 202 ∧
      (course pol API_key s r).panicked = false ∧
      (course pol API_key s r).server.courses = s.courses ∧
      RowExists (course pol API_key s r).server.db code = false ∧
      (∀ row, row.Code ≠ code → (row ∈ (course pol API_key s r).server.db ↔ row ∈ s.db)) ∧
      (∀ k, k ≠ code →
        RowExists (course pol API_key s r).server.db k = RowExists s.db k ∧
        GetRecord (course pol API_key s r).server.db k = GetRecord s.db k)) := by
  constructor
  · intro hex
    simp [course, validKey_ok API_key _ r rest hkey, hid, getBlock, deleteBlock, hm, hex,
      Flow.andThen, Flow.result, postBlock, putBlock, ResponseWriter.WriteHeader,
      ResponseWriter.Write]
  · intro hex
    have hres : (course pol API_key s r).server.db = DeleteRecord s.db code ∧
        (course pol API_key s r).w.status = some 202 ∧
        (course pol API_key s r).panicked = false ∧
        (course pol API_key s r).server.courses = s.courses := by
      simp [course, validKey_ok API_key _ r rest hkey, hid, getBlock, deleteBlock, hm, hex,
        Flow.andThen, Flow.result, postBlock, putBlock, ResponseWriter.WriteHeader,
        ResponseWriter.Write]
    obtain ⟨hdb, hst, hp, hc⟩ := hres
    refine ⟨hst, hp, hc, ?_, ?_, ?_⟩
    · rw [hdb]; exact RowExists_DeleteRecord _ _
    · intro row hrow
      rw [hdb, mem_DeleteRecord]
      exact ⟨fun h => h.1, fun h => ⟨h, hrow⟩⟩
    · intro k hk
      rw [hdb]
      exact ⟨RowExists_DeleteRecord_other _ _ _ hk, GetRecord_DeleteRecord _ _ _ hk⟩

/-- Witness of C10: deleting course 101 from a store that has 101 and 102. -/
theorem delete_correct_witness :
    (course plainPolicy "secret" ⟨[algorithms, scriptCourse 102], []⟩
        (plainRequest "DELETE" "secret" "101")).w.status = some 202 ∧
      RowExists (course plainPolicy "secret" ⟨[algorithms, scriptCourse 102], []⟩
        (plainRequest "DELETE" "secret" "101")).server.db 101 = false ∧
      GetRecord (course plainPolicy "secret" ⟨[algorithms, scriptCourse 102], []⟩
        (plainRequest "DELETE" "secret" "101")).server.db 102 = scriptCourse 102 :=
  have h := (delete_correct plainPolicy "secret" ⟨[algorithms, scriptCourse 102], []⟩
    (plainRequest "DELETE" "secret" "101") [] 101 (by decide) (by decide) (by decide)).2
    (by decide)
  ⟨h.1, h.2.2.2.1, ((h.2.2.2.2.2 102 (by decide)).2).trans (by decide)⟩

/-! ## Validation errors are not looked at (C1, C5, C9) -/

theorem validateAndSanitize_badTitle (pol : Policy) (c : CourseInfo) (h0 : 0 ≤ c.Code)
    (ht : fieldOk c.Title = false) :
    validateAndSanitize pol c =
      ({ c with Code := (Atoi (pol.Sanitize (Itoa c.Code))).1 }, false) := by
  have hm := (Itoa_match c.Code).2 h0
  unfold fieldOk at ht
  unfold validateAndSanitize
  simp only [hm, Bool.not_true, Bool.false_eq_true, if_false]
  simp only [Bool.not_eq_eq_eq_not, Bool.not_false] at ht
  simp [ht]

theorem queryGet_key (API_key : String) :
    queryGet [("key", API_key)] "key" = [API_key] := by
  simp [queryGet]

/-- C1 fails on the code at these inputs: the handler does not look at the
error of `validateAndSanitize`. A POST whose body has a negative Code, and one
whose Title is rejected by the detail pattern, are both answered 201, and the
row is inserted with the fields as submitted, whatever the policy and the key. -/
theorem post_rejected_body_inserted (pol : Policy) (API_key : String) :
    (validateAndSanitize pol ⟨-5, "Algorithms", "2024", "Dr. A", "Intro"⟩).2 = false ∧
    course pol API_key ⟨[], []⟩
        (jsonRequest "POST" API_key "101"
          (.decoded ⟨-5, "Algorithms", "2024", "Dr. A", "Intro"⟩)) =
      ⟨⟨[⟨-5, "Algorithms", "2024", "Dr. A", "Intro"⟩], []⟩,
        ⟨some 201, [.text "201 - Course added: 101"]⟩, false⟩ ∧
    (validateAndSanitize pol (scriptCourse 101)).2 = false ∧
    course pol API_key ⟨[], []⟩
        (jsonRequest "POST" API_key "101" (.decoded (scriptCourse 101))) =
      ⟨⟨[scriptCourse (Atoi (pol.Sanitize "101")).1], []⟩,
        ⟨some 201, [.text "201 - Course added: 101"]⟩, false⟩ := by
  have hid : Atoi "101" = (101, true) := by decide
  have h1 := validateAndSanitize_badCode pol ⟨-5, "Algorithms", "2024", "Dr. A", "Intro"⟩
    (by decide)
  have h2 := validateAndSanitize_badTitle pol (scriptCourse 101) (by decide) (by decide)
  have hI : Itoa (scriptCourse 101).Code = "101" := by decide
  rw [hI] at h2
  refine ⟨by rw [h1], ?_, by rw [h2], ?_⟩
  all_goals simp only [scriptCourse] at h2
  · simp [course, jsonRequest, validKey, queryGet_key, hid, getBlock, deleteBlock, postBlock,
      putBlock, Flow.andThen, Flow.result, Body.unmarshal, h1, Snapshot.hasKey, anyEmpty,
      InsertRecord, primaryKeyFree, RowExists, ResponseWriter.WriteHeader, ResponseWriter.Write]
  · simp [course, jsonRequest, validKey, queryGet_key, hid, getBlock, deleteBlock, postBlock,
      putBlock, Flow.andThen, Flow.result, Body.unmarshal, h2, Snapshot.hasKey, anyEmpty,
      InsertRecord, primaryKeyFree, RowExists, ResponseWriter.WriteHeader, ResponseWriter.Write,
      scriptCourse]

/-- C9 fails on the code at this input: a stored course whose Title the detail
pattern rejects makes `validateAndSanitize` return before it sanitises Title,
Dates, Lecturer or Description, and GET answers 200 with these fields as
stored, whatever the policy and the key. -/
theorem get_rejected_record_unsanitized (pol : Policy) (API_key : String) :
    (validateAndSanitize pol (scriptCourse 7)).2 = false ∧
    course pol API_key ⟨[scriptCourse 7], []⟩ (plainRequest "GET" API_key "7") =
      ⟨⟨[scriptCourse 7], []⟩,
        ⟨some 200, [.course (scriptCourse (Atoi (pol.Sanitize "7")).1)]⟩, false⟩ := by
  have hid : Atoi "7" = (7, true) := by decide
  have h2 := validateAndSanitize_badTitle pol (scriptCourse 7) (by decide) (by decide)
  have hI : Itoa (scriptCourse 7).Code = "7" := by decide
  rw [hI] at h2
  refine ⟨by rw [h2], ?_⟩
  have hg : GetRecord [scriptCourse 7] 7 = scriptCourse 7 := by decide
  simp only [scriptCourse] at h2 hg
  simp [course, plainRequest, validKey, queryGet_key, hid, getBlock, deleteBlock,
    Flow.andThen, Flow.result, hg, h2, RowExists, ResponseWriter.Write, scriptCourse]

/-- C5 fails on the code at this input: the list endpoint sanitises copies of
the map values and encodes the map itself, so a stored Title that the detail
pattern rejects, and every other stored field, is written to the 200 response
as stored, whatever the policy and the key. -/
theorem allcourses_encodes_stored (pol : Policy) (API_key : String) :
    detailRegExp.MatchString (scriptCourse 7).Title = false ∧
    allcourses pol API_key ⟨[scriptCourse 7, algorithms], []⟩
        ⟨"GET", [("key", API_key)], "", "", .malformed⟩ =
      ⟨⟨[scriptCourse 7, algorithms], [(7, scriptCourse 7), (101, algorithms)]⟩,
        ⟨some 200, [.text "List of all courses",
          .courses [(7, scriptCourse 7), (101, algorithms)]]⟩, false⟩ := by
  refine ⟨by decide, ?_⟩
  have hg : GetRecords [scriptCourse 7, algorithms] =
      [(7, scriptCourse 7), (101, algorithms)] := by decide
  simp [allcourses, validKey, queryGet_key, hg, ResponseWriter.Write]

/-- C3 fails on the code at this input: with course 101 in the store and the
snapshot empty, as it is until the list endpoint is called, a POST for 101 is
not answered 409, whatever the policy and the key: the handler goes on to
`InsertRecord`. With a policy that returns plain text as it is, the insert of
the second row 101 is refused by the table and the handler ends in a panic
without a response. -/
theorem post_existing_not_conflict (pol : Policy) (API_key : String) :
    RowExists [algorithms] 101 = true ∧
    (course pol API_key ⟨[algorithms], []⟩
      (jsonRequest "POST" API_key "101"
        (.decoded ⟨101, "Databases", "2025", "Dr. B", "Storage"⟩))).w.status ≠ some 409 ∧
    course plainPolicy "secret" ⟨[algorithms], []⟩
        (jsonRequest "POST" "secret" "101"
          (.decoded ⟨101, "Databases", "2025", "Dr. B", "Storage"⟩)) =
      ⟨⟨[algorithms], []⟩, ⟨none, []⟩, true⟩ := by
  have hid : Atoi "101" = (101, true) := by decide
  refine ⟨by decide, ?_, by decide⟩
  simp only [course, jsonRequest, validKey, queryGet_key, hid, getBlock, deleteBlock, postBlock,
    putBlock, Flow.andThen, Flow.result, Body.unmarshal, Snapshot.hasKey, List.any_nil,
    if_true, if_false, Bool.not_false]
  simp only [String.reduceEq, if_false, if_true, List.any_nil, Bool.not_false]
  split_ifs
  · simp [ResponseWriter.WriteHeader, ResponseWriter.Write]
  · generalize InsertRecord [algorithms] _ _ _ _ _ = ins
    cases ins <;> simp [ResponseWriter.WriteHeader, ResponseWriter.Write]

/-! ## What `validateAndSanitize` leaves in each field -/

theorem validateAndSanitize_Code_eq (pol : Policy) (c : CourseInfo) :
    (validateAndSanitize pol c).1.Code =
      if codeRegExp.MatchString (Itoa c.Code) = true then (Atoi (pol.Sanitize (Itoa c.Code))).1
      else c.Code := by
  unfold validateAndSanitize
  simp only []
  split_ifs <;> simp_all

theorem validateAndSanitize_Title_cases (pol : Policy) (c : CourseInfo) :
    (validateAndSanitize pol c).1.Title = c.Title ∨
      (validateAndSanitize pol c).1.Title = pol.Sanitize c.Title := by
  unfold validateAndSanitize
  simp only []
  split_ifs <;> simp

theorem validateAndSanitize_Dates_cases (pol : Policy) (c : CourseInfo) :
    (validateAndSanitize pol c).1.Dates = c.Dates ∨
      (validateAndSanitize pol c).1.Dates = pol.Sanitize c.Dates := by
  unfold validateAndSanitize
  simp only []
  split_ifs <;> simp

theorem validateAndSanitize_Lecturer_cases (pol : Policy) (c : CourseInfo) :
    (validateAndSanitize pol c).1.Lecturer = c.Lecturer ∨
      (validateAndSanitize pol c).1.Lecturer = pol.Sanitize c.Lecturer := by
  unfold validateAndSanitize
  simp only []
  split_ifs <;> simp

theorem validateAndSanitize_Description_cases (pol : Policy) (c : CourseInfo) :
    (validateAndSanitize pol c).1.Description = c.Description ∨
      (validateAndSanitize pol c).1.Description = pol.Sanitize c.Description := by
  unfold validateAndSanitize
  simp only []
  split_ifs <;> simp

theorem Atoi_range (t : String) (v : Int) (h : Atoi t = (v, true)) :
    minInt ≤ v ∧ v ≤ maxInt := by
  unfold Atoi at h
  split at h
  · simp at h
  · rename_i w _
    split_ifs at h with h1 h2
    · simp at h
    · simp at h
    · simp only [Prod.mk.injEq, and_true] at h
      subst h
      omega

theorem validateAndSanitize_Code (pol : Policy) (hpol : pol.KeepsPlain) (c : CourseInfo)
    (h : c.Code ≤ maxInt) : (validateAndSanitize pol c).1.Code = c.Code := by
  rw [validateAndSanitize_Code_eq]
  split_ifs with hm
  · have h0 := (Itoa_match c.Code).1 hm
    rw [hpol.digits _ (Itoa_digits c.Code h0), Atoi_Itoa c.Code h0 h]
  · rfl

theorem anyEmpty_validateAndSanitize (pol : Policy) (hempty : pol.Sanitize "" = "")
    (c : CourseInfo)
    (he : c.Title = "" ∨ c.Dates = "" ∨ c.Lecturer = "" ∨ c.Description = "") :
    anyEmpty (validateAndSanitize pol c).1 = true := by
  simp only [anyEmpty, Bool.or_eq_true, beq_iff_eq]
  rcases he with h | h | h | h
  · rcases validateAndSanitize_Title_cases pol c with h2 | h2 <;> rw [h] at h2
    · exact Or.inl (Or.inl (Or.inl h2))
    · exact Or.inl (Or.inl (Or.inl (h2.trans hempty)))
  · rcases validateAndSanitize_Dates_cases pol c with h2 | h2 <;> rw [h] at h2
    · exact Or.inl (Or.inl (Or.inr h2))
    · exact Or.inl (Or.inl (Or.inr (h2.trans hempty)))
  · rcases validateAndSanitize_Lecturer_cases pol c with h2 | h2 <;> rw [h] at h2
    · exact Or.inl (Or.inr h2)
    · exact Or.inl (Or.inr (h2.trans hempty))
  · rcases validateAndSanitize_Description_cases pol c with h2 | h2 <;> rw [h] at h2
    · exact Or.inr h2
    · exact Or.inr (h2.trans hempty)

/-! ## POST with an empty field (C4) -/

/-- C4, as the spec states it, fails: a POST whose body has an empty Title is
answered 409, not 422, when the path identifier is a key of the snapshot, and
400 when the path identifier is not an integer. -/
theorem post_empty_field_not_422 :
    (course plainPolicy "secret" ⟨[algorithms], [(101, algorithms)]⟩
      (jsonRequest "POST" "secret" "101"
        (.decoded ⟨101, "", "2025", "Dr. B", "Storage"⟩))).w.status = some 409 ∧
    (course plainPolicy "secret" ⟨[], []⟩
      (jsonRequest "POST" "secret" "abc"
        (.decoded ⟨101, "", "2025", "Dr. B", "Storage"⟩))).w.status = some 400 := by
  decide

/-- C4, amended: a POST request with a valid key, the JSON content type, an
integer path identifier and a body Course with at least one of Title, Dates,
Lecturer, Description empty is answered 422 when the path identifier is not a
key of the snapshot and 409 when it is; in both cases the store and the
snapshot are left as they were and no record is created. -/
theorem post_empty_field (pol : Policy) (API_key : String) (s : Server) (r : Request)
    (rest : List String) (code : Int) (c : CourseInfo)
    (hempty : pol.Sanitize "" = "")
    (hkey : queryGet r.query "key" = API_key :: rest)
    (hid : Atoi r.courseid = (code, true))
    (hm : r.Method = "POST")
    (hct : r.contentType = "application/json")
    (hb : r.body = .decoded c)
    (he : c.Title = "" ∨ c.Dates = "" ∨ c.Lecturer = "" ∨ c.Description = "") :
    (course pol API_key s r).server = s ∧
    (course pol API_key s r).panicked = false ∧
    (s.courses.hasKey code = false → (course pol API_key s r).w.status = some 422) ∧
    (s.courses.hasKey code = true → (course pol API_key s r).w.status = some 409) := by
  have hany := anyEmpty_validateAndSanitize pol hempty c he
  have hcourse : course pol API_key s r =
      if s.courses.hasKey code then
        ⟨s, ⟨some 409, [.text "409 - Duplicate course ID"]⟩, false⟩
      else
        ⟨s, ⟨some 422, [.text "422 - Please supply courseinformation in JSON format"]⟩,
          false⟩ := by
    simp only [course, validKey_ok API_key _ r rest hkey, hid, getBlock, deleteBlock, hm, hct,
      postBlock, putBlock, hb, Body.unmarshal, hany, Flow.andThen, Flow.result,
      String.reduceEq, if_false, if_true]
    split_ifs <;> simp_all [ResponseWriter.WriteHeader, ResponseWriter.Write]
  rw [hcourse]
  refine ⟨?_, ?_, ?_, ?_⟩
  · split_ifs <;> rfl
  · split_ifs <;> rfl
  · intro h; simp [h]
  · intro h; simp [h]

/-- Witness of C4, amended: an empty Title with the snapshot empty. -/
theorem post_empty_field_witness :
    (course plainPolicy "secret" ⟨[], []⟩
      (jsonRequest "POST" "secret" "101"
        (.decoded ⟨101, "", "2025", "Dr. B", "Storage"⟩))).server = ⟨[], []⟩ ∧
    (course plainPolicy "secret" ⟨[], []⟩
      (jsonRequest "POST" "secret" "101"
        (.decoded ⟨101, "", "2025", "Dr. B", "Storage"⟩))).w.status = some 422 :=
  have h := post_empty_field plainPolicy "secret" ⟨[], []⟩
    (jsonRequest "POST" "secret" "101" (.decoded ⟨101, "", "2025", "Dr. B", "Storage"⟩))
    [] 101 ⟨101, "", "2025", "Dr. B", "Storage"⟩ rfl (by decide) (by decide) rfl rfl rfl
    (Or.inl rfl)
  ⟨h.1, h.2.2.1 (by decide)⟩

/-! ## PUT on a course that is in the store (C2) -/

theorem validateAndSanitize_text_cases (pol : Policy) (c : CourseInfo) (f : Field) :
    (validateAndSanitize pol c).1.text f = c.text f ∨
      (validateAndSanitize pol c).1.text f = pol.Sanitize (c.text f) := by
  cases f
  · exact validateAndSanitize_Title_cases pol c
  · exact validateAndSanitize_Dates_cases pol c
  · exact validateAndSanitize_Lecturer_cases pol c
  · exact validateAndSanitize_Description_cases pol c

theorem validateAndSanitize_text_fixed (pol : Policy) (c : CourseInfo) (f : Field)
    (h : pol.Sanitize (c.text f) = c.text f) : (validateAndSanitize pol c).1.text f = c.text f := by
  rcases validateAndSanitize_text_cases pol c f with h2 | h2
  · exact h2
  · exact h2.trans h

theorem mergeEmpty_Code (n o : CourseInfo) : (mergeEmpty n o).Code = n.Code := by
  unfold mergeEmpty
  simp only []
  split_ifs <;> rfl

theorem mergeEmpty_text (n o : CourseInfo) (f : Field) :
    (mergeEmpty n o).text f = if n.text f = "" then o.text f else n.text f := by
  cases f <;> unfold mergeEmpty <;> simp only [CourseInfo.text] <;> split_ifs <;> simp_all

theorem foldl_pick_edit (code : Int) (T D L De : String) (db : Table) :
    ∀ init : CourseInfo,
      (EditRecord db code T D L De).foldl (fun course r => if r.Code = code then r else course)
          init =
        if RowExists db code = true then ⟨code, T, D, L, De⟩ else init := by
  induction db with
  | nil => intro init; simp [EditRecord, RowExists]
  | cons r rs ih =>
    intro init
    have ih2 := ih
    simp only [EditRecord] at ih2
    by_cases hr : r.Code = code
    · subst hr
      simp only [EditRecord, List.map_cons, if_true, List.foldl_cons, RowExists,
        List.any_cons, beq_self_eq_true, Bool.true_or]
      rw [ih2 ⟨r.Code, T, D, L, De⟩]
      split_ifs <;> rfl
    · have hb : (r.Code == code) = false := by simpa using hr
      simp only [EditRecord, List.map_cons, hr, if_false, List.foldl_cons, RowExists,
        List.any_cons, hb, Bool.false_or]
      exact ih2 init

theorem GetRecord_EditRecord (db : Table) (code : Int) (T D L De : String)
    (h : RowExists db code = true) :
    GetRecord (EditRecord db code T D L De) code = ⟨code, T, D, L, De⟩ := by
  unfold GetRecord
  rw [foldl_pick_edit, if_pos h]

theorem foldl_pick_edit_other (code k : Int) (hk : k ≠ code) (T D L De : String) (db : Table) :
    ∀ init : CourseInfo,
      (EditRecord db code T D L De).foldl (fun course r => if r.Code = k then r else course)
          init =
        db.foldl (fun course r => if r.Code = k then r else course) init := by
  induction db with
  | nil => intro init; rfl
  | cons r rs ih =>
    intro init
    have ih2 := ih
    simp only [EditRecord] at ih2
    by_cases hr : r.Code = code
    · have hrk : ¬ r.Code = k := by rw [hr]; exact fun h => hk h.symm
      have hck : ¬ code = k := fun h => hk h.symm
      simp only [EditRecord, List.map_cons, hr, if_true, List.foldl_cons, hck, if_false]
      exact ih2 init
    · simp only [EditRecord, List.map_cons, hr, if_false, List.foldl_cons]
      exact ih2 _

theorem GetRecord_EditRecord_other (db : Table) (code k : Int) (hk : k ≠ code)
    (T D L De : String) : GetRecord (EditRecord db code T D L De) k = GetRecord db k :=
  foldl_pick_edit_other code k hk T D L De db CourseInfo.zero

theorem RowExists_EditRecord (db : Table) (code k : Int) (T D L De : String) :
    RowExists (EditRecord db code T D L De) k = RowExists db k := by
  induction db with
  | nil => rfl
  | cons r rs ih =>
    simp only [RowExists, EditRecord] at ih
    simp only [RowExists, EditRecord, List.map_cons, List.any_cons, ih]
    split_ifs <;> rfl

/-- C2, as the spec states it, fails. The empty fields of the body are filled
from the record read with the path identifier: a PUT to `/courses/102` with
Code 101 and only Dates in the body is answered 202 and leaves course 101
with the Title, Lecturer and Description of course 102. And the record read
is passed through `validateAndSanitize` before the merge: with a policy that
escapes the apostrophe, a stored Lecturer `O'Neil` is stored back as
`O&#39;Neil` although the body left Lecturer empty. -/
theorem put_empty_field_not_preserved :
    ((course plainPolicy "secret" ⟨[algorithms, databases], []⟩
        (jsonRequest "PUT" "secret" "102" (.decoded ⟨101, "", "2025", "", ""⟩))).w.status =
      some 202 ∧
    GetRecord (course plainPolicy "secret" ⟨[algorithms, databases], []⟩
        (jsonRequest "PUT" "secret" "102" (.decoded ⟨101, "", "2025", "", ""⟩))).server.db 101 =
      ⟨101, "Databases", "2025", "Dr. B", "Storage"⟩ ∧
    (GetRecord [algorithms, databases] 101).Title = "Algorithms") ∧
    ((course escapePolicy "secret" ⟨[⟨101, "Algorithms", "2024", "O'Neil", "Intro"⟩], []⟩
        (jsonRequest "PUT" "secret" "101" (.decoded ⟨101, "", "2025", "", ""⟩))).w.status =
      some 202 ∧
    GetRecord (course escapePolicy "secret" ⟨[⟨101, "Algorithms", "2024", "O'Neil", "Intro"⟩], []⟩
        (jsonRequest "PUT" "secret" "101" (.decoded ⟨101, "", "2025", "", ""⟩))).server.db 101 =
      ⟨101, "Algorithms", "2025", "O&#39;Neil", "Intro"⟩) := by
  decide

/-- C2, amended: a PUT request with a valid key, the JSON content type, a body
Course whose Code is in the store and a path identifier that is this same
Code is answered 202. Afterwards the record stored for that Code has, in each
text field that is empty in the body, the previous stored value as
`validateAndSanitize` leaves it (the previous value itself whenever the
sanitiser returns that value unchanged), and in each field that the body
supplies non-empty after `validateAndSanitize`, the body's value; the rows of
every other Code and the snapshot are as before. The policy is taken to return
the empty string and runs of digits unchanged. -/
theorem put_existing_merges (pol : Policy) (API_key : String) (s : Server) (r : Request)
    (rest : List String) (c : CourseInfo)
    (hpol : pol.KeepsPlain)
    (hkey : queryGet r.query "key" = API_key :: rest)
    (hid : Atoi r.courseid = (c.Code, true))
    (hm : r.Method = "PUT")
    (hct : r.contentType = "application/json")
    (hb : r.body = .decoded c)
    (hex : RowExists s.db c.Code = true) :
    (course pol API_key s r).w.status = some 202 ∧
    (course pol API_key s r).panicked = false ∧
    (course pol API_key s r).server.courses = s.courses ∧
    (GetRecord (course pol API_key s r).server.db c.Code).Code = c.Code ∧
    (∀ f, c.text f = "" →
      (GetRecord (course pol API_key s r).server.db c.Code).text f =
        (validateAndSanitize pol (GetRecord s.db c.Code)).1.text f) ∧
    (∀ f, c.text f = "" → pol.Sanitize ((GetRecord s.db c.Code).text f) =
        (GetRecord s.db c.Code).text f →
      (GetRecord (course pol API_key s r).server.db c.Code).text f =
        (GetRecord s.db c.Code).text f) ∧
    (∀ f, (validateAndSanitize pol c).1.text f ≠ "" →
      (GetRecord (course pol API_key s r).server.db c.Code).text f =
        (validateAndSanitize pol c).1.text f) ∧
    (∀ k, k ≠ c.Code →
      RowExists (course pol API_key s r).server.db k = RowExists s.db k ∧
      GetRecord (course pol API_key s r).server.db k = GetRecord s.db k) := by
  have hcode := validateAndSanitize_Code pol hpol c (Atoi_range _ _ hid).2
  have hres : (course pol API_key s r).server.db =
        EditRecord s.db c.Code
          (mergeEmpty (validateAndSanitize pol c).1
            (validateAndSanitize pol (GetRecord s.db c.Code)).1).Title
          (mergeEmpty (validateAndSanitize pol c).1
            (validateAndSanitize pol (GetRecord s.db c.Code)).1).Dates
          (mergeEmpty (validateAndSanitize pol c).1
            (validateAndSanitize pol (GetRecord s.db c.Code)).1).Lecturer
          (mergeEmpty (validateAndSanitize pol c).1
            (validateAndSanitize pol (GetRecord s.db c.Code)).1).Description ∧
      (course pol API_key s r).w.status = some 202 ∧
      (course pol API_key s r).panicked = false ∧
      (course pol API_key s r).server.courses = s.courses := by
    simp [course, validKey_ok API_key _ r rest hkey, hid, getBlock, deleteBlock, hm, hct,
      postBlock, putBlock, hb, Body.unmarshal, hex, Flow.andThen, Flow.result,
      mergeEmpty_Code, hcode, ResponseWriter.WriteHeader, ResponseWriter.Write]
  obtain ⟨hdb, hst, hp, hc⟩ := hres
  have hget := GetRecord_EditRecord s.db c.Code
    (mergeEmpty (validateAndSanitize pol c).1
      (validateAndSanitize pol (GetRecord s.db c.Code)).1).Title
    (mergeEmpty (validateAndSanitize pol c).1
      (validateAndSanitize pol (GetRecord s.db c.Code)).1).Dates
    (mergeEmpty (validateAndSanitize pol c).1
      (validateAndSanitize pol (GetRecord s.db c.Code)).1).Lecturer
    (mergeEmpty (validateAndSanitize pol c).1
      (validateAndSanitize pol (GetRecord s.db c.Code)).1).Description hex
  rw [← hdb] at hget
  have htext : ∀ f, (GetRecord (course pol API_key s r).server.db c.Code).text f =
      (mergeEmpty (validateAndSanitize pol c).1
        (validateAndSanitize pol (GetRecord s.db c.Code)).1).text f := by
    intro f
    rw [hget]
    cases f <;> simp only [CourseInfo.text]
  have hnew : ∀ f, c.text f = "" → (validateAndSanitize pol c).1.text f = "" := by
    intro f hf
    rcases validateAndSanitize_text_cases pol c f with h | h
    · exact h.trans hf
    · rw [h, hf]; exact hpol.empty
  refine ⟨hst, hp, hc, by rw [hget], ?_, ?_, ?_, ?_⟩
  · intro f hf
    rw [htext, mergeEmpty_text, if_pos (hnew f hf)]
  · intro f hf hfix
    rw [htext, mergeEmpty_text, if_pos (hnew f hf)]
    exact validateAndSanitize_text_fixed pol _ f hfix
  · intro f hf
    rw [htext, mergeEmpty_text, if_neg hf]
  · intro k hk
    rw [hdb]
    exact ⟨RowExists_EditRecord _ _ _ _ _ _ _, GetRecord_EditRecord_other _ _ _ hk _ _ _ _⟩

theorem plainPolicy_KeepsPlain : plainPolicy.KeepsPlain := ⟨rfl, fun _ _ => rfl⟩

/-- Witness of C2, amended: the scenario of the spec, a PUT to `/courses/101`
with only Dates in the body. -/
theorem put_existing_merges_witness :
    (course plainPolicy "secret" ⟨[algorithms, databases], []⟩
        (jsonRequest "PUT" "secret" "101" (.decoded ⟨101, "", "2025", "", ""⟩))).w.status =
      some 202 ∧
    (GetRecord (course plainPolicy "secret" ⟨[algorithms, databases], []⟩
        (jsonRequest "PUT" "secret" "101"
          (.decoded ⟨101, "", "2025", "", ""⟩))).server.db 101).text .Title = "Algorithms" ∧
    (GetRecord (course plainPolicy "secret" ⟨[algorithms, databases], []⟩
        (jsonRequest "PUT" "secret" "101"
          (.decoded ⟨101, "", "2025", "", ""⟩))).server.db 101).text .Dates = "2025" :=
  have h := put_existing_merges plainPolicy "secret" ⟨[algorithms, databases], []⟩
    (jsonRequest "PUT" "secret" "101" (.decoded ⟨101, "", "2025", "", ""⟩)) []
    ⟨101, "", "2025", "", ""⟩ plainPolicy_KeepsPlain (by decide) (by decide) rfl rfl rfl
    (by decide)
  ⟨h.1, (h.2.2.2.2.2.1 .Title rfl rfl).trans (by decide),
    (h.2.2.2.2.2.2.1 .Dates (by decide)).trans (by decide)⟩

/-! ## POST, then GET (C11) -/

theorem CourseInfo.ext_text (a b : CourseInfo) (hc : a.Code = b.Code)
    (ht : ∀ f, a.text f = b.text f) : a = b := by
  cases a
  cases b
  have h1 := ht .Title
  have h2 := ht .Dates
  have h3 := ht .Lecturer
  have h4 := ht .Description
  simp only [CourseInfo.text] at h1 h2 h3 h4
  simp only at hc
  subst hc h1 h2 h3 h4
  rfl

theorem validateAndSanitize_fixed (pol : Policy) (hpol : pol.KeepsPlain) (c : CourseInfo)
    (hr : c.Code ≤ maxInt) (hfix : ∀ f, pol.Sanitize (c.text f) = c.text f) :
    (validateAndSanitize pol c).1 = c :=
  CourseInfo.ext_text _ _ (validateAndSanitize_Code pol hpol c hr)
    (fun f => validateAndSanitize_text_fixed pol c f (hfix f))

theorem GetRecord_append_single (db : Table) (row : CourseInfo) :
    GetRecord (db ++ [row]) row.Code = row := by
  simp [GetRecord, List.foldl_append]

theorem RowExists_append_single (db : Table) (row : CourseInfo) :
    RowExists (db ++ [row]) row.Code = true := by
  simp [RowExists]

theorem InsertRecord_fresh (db : Table) (Code : Int) (T D L De : String)
    (h : RowExists db Code = false) :
    InsertRecord db Code T D L De = some (db ++ [⟨Code, T, D, L, De⟩]) := by
  simp [InsertRecord, primaryKeyFree, h]

theorem InsertRecord_duplicate (db : Table) (Code : Int) (T D L De : String)
    (h : RowExists db Code = true) : InsertRecord db Code T D L De = none := by
  simp [InsertRecord, primaryKeyFree, h]

theorem DetailShape_ne_empty (x : String) (h : DetailShape x) : x ≠ "" := by
  obtain ⟨c, rest, hs, _⟩ := h
  intro hx
  rw [hx] at hs
  simp at hs

theorem anyEmpty_eq_false (c : CourseInfo) (h : ∀ f, c.text f ≠ "") : anyEmpty c = false := by
  have h1 := h .Title
  have h2 := h .Dates
  have h3 := h .Lecturer
  have h4 := h .Description
  simp only [CourseInfo.text] at h1 h2 h3 h4
  simp [anyEmpty, h1, h2, h3, h4]

theorem validateAndSanitize_ok_text (pol : Policy) (c : CourseInfo)
    (h : (validateAndSanitize pol c).2 = true) (f : Field) :
    (validateAndSanitize pol c).1.text f = pol.Sanitize (c.text f) := by
  rw [validateAndSanitize_ok pol c h]
  cases f <;> rfl

theorem fieldOk_text (pol : Policy) (c : CourseInfo) (h : (validateAndSanitize pol c).2 = true)
    (f : Field) : fieldOk (c.text f) = true := by
  rw [validateAndSanitize_snd] at h
  simp only [Bool.and_eq_true] at h
  obtain ⟨⟨⟨⟨_, h1⟩, h2⟩, h3⟩, h4⟩ := h
  cases f
  · exact h1
  · exact h2
  · exact h3
  · exact h4

theorem post_fresh_result (pol : Policy) (API_key : String) (s : Server) (r : Request)
    (rest : List String) (code : Int)
    (hkey : queryGet r.query "key" = API_key :: rest)
    (hid : Atoi r.courseid = (code, true))
    (hm : r.Method = "POST")
    (hct : r.contentType = "application/json")
    (hbody : r.body ≠ .unreadable)
    (hsnap : s.courses.hasKey code = false)
    (hany : anyEmpty (validateAndSanitize pol r.body.unmarshal).1 = false) :
    course pol API_key s r =
      match InsertRecord s.db (validateAndSanitize pol r.body.unmarshal).1.Code
          (validateAndSanitize pol r.body.unmarshal).1.Title
          (validateAndSanitize pol r.body.unmarshal).1.Dates
          (validateAndSanitize pol r.body.unmarshal).1.Lecturer
          (validateAndSanitize pol r.body.unmarshal).1.Description with
      | none => ⟨s, ⟨none, []⟩, true⟩
      | some db =>
        ⟨⟨db, s.courses⟩, ⟨some 201, [.text ("201 - Course added: " ++ r.courseid)]⟩, false⟩ := by
  cases hb : r.body with
  | unreadable => exact absurd hb hbody
  | malformed =>
    rw [hb] at hany
    simp only [course, validKey_ok API_key _ r rest hkey, hid, getBlock, deleteBlock, hm, hct,
      postBlock, putBlock, hb, hsnap, hany, Flow.andThen, Flow.result,
      String.reduceEq, if_false, if_true, Bool.not_false, Bool.false_eq_true]
    cases InsertRecord s.db _ _ _ _ _ <;>
      simp [ResponseWriter.WriteHeader, ResponseWriter.Write]
  | decoded c =>
    rw [hb] at hany
    simp only [course, validKey_ok API_key _ r rest hkey, hid, getBlock, deleteBlock, hm, hct,
      postBlock, putBlock, hb, hsnap, hany, Flow.andThen, Flow.result,
      String.reduceEq, if_false, if_true, Bool.not_false, Bool.false_eq_true]
    cases InsertRecord s.db _ _ _ _ _ <;>
      simp [ResponseWriter.WriteHeader, ResponseWriter.Write]

theorem get_existing_result (pol : Policy) (API_key : String) (s : Server) (g : Request)
    (rest : List String) (code : Int)
    (hkey : queryGet g.query "key" = API_key :: rest)
    (hid : Atoi g.courseid = (code, true))
    (hm : g.Method = "GET")
    (hex : RowExists s.db code = true) :
    course pol API_key s g =
      ⟨s, ⟨some 200, [.course (validateAndSanitize pol (GetRecord s.db code)).1]⟩, false⟩ := by
  simp [course, validKey_ok API_key _ g rest hkey, hid, getBlock, deleteBlock, hm, hex,
    postBlock, putBlock, Flow.andThen, Flow.result, ResponseWriter.Write]

/-- C11: for a Course that passes validation, with four non-empty text fields
and a Code that is in neither the store nor the snapshot, a POST to
`/courses/{Code}` with that Course as body and a valid key is answered 201, and
a GET of `/courses/{Code}` that follows is answered 200 with the Course made of
the submitted Code and the sanitised submitted Title, Dates, Lecturer and
Description. The policy is taken to return digit strings unchanged, to be
idempotent, and not to empty a text that the detail pattern accepts. -/
theorem post_then_get (pol : Policy) (API_key : String) (s : Server) (r g : Request)
    (rest rest2 : List String) (c : CourseInfo)
    (hpol : pol.KeepsPlain) (hidem : pol.Idempotent) (hkeep : pol.KeepsDetail)
    (hvalid : (validateAndSanitize pol c).2 = true)
    (hfields : ∀ f, c.text f ≠ "")
    (hstore : RowExists s.db c.Code = false)
    (hsnap : s.courses.hasKey c.Code = false)
    (hkey : queryGet r.query "key" = API_key :: rest)
    (hid : Atoi r.courseid = (c.Code, true))
    (hm : r.Method = "POST")
    (hct : r.contentType = "application/json")
    (hb : r.body = .decoded c)
    (hkey2 : queryGet g.query "key" = API_key :: rest2)
    (hid2 : Atoi g.courseid = (c.Code, true))
    (hm2 : g.Method = "GET") :
    0 ≤ c.Code ∧
    (course pol API_key s r).w.status = some 201 ∧
    (course pol API_key s r).panicked = false ∧
    course pol API_key (course pol API_key s r).server g =
      ⟨(course pol API_key s r).server,
        ⟨some 200, [.course ⟨c.Code, pol.Sanitize c.Title, pol.Sanitize c.Dates,
          pol.Sanitize c.Lecturer, pol.Sanitize c.Description⟩]⟩, false⟩ := by
  have hrange := (Atoi_range _ _ hid).2
  have hcode := validateAndSanitize_Code pol hpol c hrange
  have hne : ∀ f, (validateAndSanitize pol c).1.text f ≠ "" := by
    intro f
    rw [validateAndSanitize_ok_text pol c hvalid f]
    have hok := (fieldOk_iff _).1 (fieldOk_text pol c hvalid f)
    rcases hok with h | h
    · exact absurd h (hfields f)
    · exact hkeep _ h
  have hany := anyEmpty_eq_false _ hne
  have hu : r.body.unmarshal = c := by rw [hb]; rfl
  have hpost := post_fresh_result pol API_key s r rest c.Code hkey hid hm hct
    (by rw [hb]; exact fun h => Body.noConfusion h) hsnap (by rw [hu]; exact hany)
  rw [hu, hcode, InsertRecord_fresh _ _ _ _ _ _ hstore] at hpost
  have h0 : 0 ≤ c.Code := by
    have h := hvalid
    rw [validateAndSanitize_snd] at h
    simp only [Bool.and_eq_true] at h
    exact (Itoa_match c.Code).1 h.1.1.1.1
  refine ⟨h0, by rw [hpost], by rw [hpost], ?_⟩
  rw [hpost]
  have hex := RowExists_append_single s.db
    ⟨c.Code, (validateAndSanitize pol c).1.Title, (validateAndSanitize pol c).1.Dates,
      (validateAndSanitize pol c).1.Lecturer, (validateAndSanitize pol c).1.Description⟩
  have hget := GetRecord_append_single s.db
    ⟨c.Code, (validateAndSanitize pol c).1.Title, (validateAndSanitize pol c).1.Dates,
      (validateAndSanitize pol c).1.Lecturer, (validateAndSanitize pol c).1.Description⟩
  simp only at hex hget
  rw [get_existing_result pol API_key _ g rest2 c.Code hkey2 hid2 hm2 hex, hget]
  have hrow : (⟨c.Code, (validateAndSanitize pol c).1.Title, (validateAndSanitize pol c).1.Dates,
      (validateAndSanitize pol c).1.Lecturer, (validateAndSanitize pol c).1.Description⟩ :
        CourseInfo) =
      ⟨c.Code, pol.Sanitize c.Title, pol.Sanitize c.Dates, pol.Sanitize c.Lecturer,
        pol.Sanitize c.Description⟩ := by
    rw [validateAndSanitize_ok pol c hvalid]
  rw [hrow]
  have hfix := validateAndSanitize_fixed pol hpol
    ⟨c.Code, pol.Sanitize c.Title, pol.Sanitize c.Dates, pol.Sanitize c.Lecturer,
      pol.Sanitize c.Description⟩ hrange
    (by intro f; cases f <;> exact hidem _)
  rw [hfix]

theorem plainPolicy_Idempotent : plainPolicy.Idempotent := fun _ => rfl

theorem plainPolicy_KeepsDetail : plainPolicy.KeepsDetail := fun x h => DetailShape_ne_empty x h

/-- Witness of C11: the scenario of the spec, POST and then GET of course 101. -/
theorem post_then_get_witness :
    (course plainPolicy "secret" ⟨[], []⟩
      (jsonRequest "POST" "secret" "101" (.decoded algorithms))).w.status = some 201 ∧
    course plainPolicy "secret"
        (course plainPolicy "secret" ⟨[], []⟩
          (jsonRequest "POST" "secret" "101" (.decoded algorithms))).server
        (plainRequest "GET" "secret" "101") =
      ⟨⟨[algorithms], []⟩, ⟨some 200, [.course algorithms]⟩, false⟩ :=
  have h := post_then_get plainPolicy "secret" ⟨[], []⟩
    (jsonRequest "POST" "secret" "101" (.decoded algorithms))
    (plainRequest "GET" "secret" "101") [] [] algorithms
    plainPolicy_KeepsPlain plainPolicy_Idempotent plainPolicy_KeepsDetail
    (by decide) (by intro f; cases f <;> decide) (by decide) (by decide)
    (by decide) (by decide) rfl rfl rfl (by decide) (by decide) rfl
  ⟨h.2.1, h.2.2.2.trans (by decide)⟩

/-! ## POST and PUT without a JSON body (C12) -/

theorem course_not_json (pol : Policy) (API_key : String) (s : Server) (r : Request)
    (hm : r.Method = "POST" ∨ r.Method = "PUT")
    (hct : r.contentType ≠ "application/json") :
    (course pol API_key s r).server = s ∧ (course pol API_key s r).panicked = false := by
  unfold course
  rcases hv : validKey API_key ⟨none, []⟩ r with ⟨ok, w⟩
  cases ok
  · simp
  · rcases ha : Atoi r.courseid with ⟨code, good⟩
    cases good
    · simp
    · rcases hm with hm | hm <;>
        simp [getBlock, deleteBlock, hm, hct, Flow.andThen, Flow.result]

/-- C12 holds on the code for a request without the JSON content type, the
first conjunct, and fails at the input of the second: `json.Unmarshal` leaves
the zero Course for a body that is not JSON and its error is not looked at, so
a PUT to `/courses/101` with such a body, when a course with Code 0 is in the
store, is answered 202 and overwrites the text fields of course 0 with those
of course 101. -/
theorem put_malformed_body_edits :
    (∀ (pol : Policy) (API_key : String) (s : Server) (r : Request),
      (r.Method = "POST" ∨ r.Method = "PUT") → r.contentType ≠ "application/json" →
      (course pol API_key s r).server = s) ∧
    course plainPolicy "secret" ⟨[⟨0, "Zero", "2020", "Dr. Z", "Null"⟩, algorithms], []⟩
        (jsonRequest "PUT" "secret" "101" .malformed) =
      ⟨⟨[⟨0, "Algorithms", "2024", "Dr. A", "Intro"⟩, algorithms], []⟩,
        ⟨some 202, [.text "202 - Course updated: 101"]⟩, false⟩ :=
  ⟨fun pol API_key s r hm hct => (course_not_json pol API_key s r hm hct).1, by decide⟩

/-! ## The outcome of POST (C14) -/

theorem post_known_result (pol : Policy) (API_key : String) (s : Server) (r : Request)
    (rest : List String) (code : Int)
    (hkey : queryGet r.query "key" = API_key :: rest)
    (hid : Atoi r.courseid = (code, true))
    (hm : r.Method = "POST")
    (hct : r.contentType = "application/json")
    (hbody : r.body ≠ .unreadable)
    (hsnap : s.courses.hasKey code = true) :
    course pol API_key s r = ⟨s, ⟨some 409, [.text "409 - Duplicate course ID"]⟩, false⟩ := by
  cases hb : r.body with
  | unreadable => exact absurd hb hbody
  | malformed =>
    simp [course, validKey_ok API_key _ r rest hkey, hid, getBlock, deleteBlock, hm, hct,
      postBlock, putBlock, hb, hsnap, Flow.andThen, Flow.result, ResponseWriter.WriteHeader,
      ResponseWriter.Write]
  | decoded c =>
    simp [course, validKey_ok API_key _ r rest hkey, hid, getBlock, deleteBlock, hm, hct,
      postBlock, putBlock, hb, hsnap, Flow.andThen, Flow.result, ResponseWriter.WriteHeader,
      ResponseWriter.Write]

theorem post_incomplete_result (pol : Policy) (API_key : String) (s : Server) (r : Request)
    (rest : List String) (code : Int)
    (hkey : queryGet r.query "key" = API_key :: rest)
    (hid : Atoi r.courseid = (code, true))
    (hm : r.Method = "POST")
    (hct : r.contentType = "application/json")
    (hbody : r.body ≠ .unreadable)
    (hsnap : s.courses.hasKey code = false)
    (hany : anyEmpty (validateAndSanitize pol r.body.unmarshal).1 = true) :
    course pol API_key s r =
      ⟨s, ⟨some 422, [.text "422 - Please supply courseinformation in JSON format"]⟩,
        false⟩ := by
  cases hb : r.body with
  | unreadable => exact absurd hb hbody
  | malformed =>
    rw [hb] at hany
    simp [course, validKey_ok API_key _ r rest hkey, hid, getBlock, deleteBlock, hm, hct,
      postBlock, putBlock, hb, hsnap, hany, Flow.andThen, Flow.result,
      ResponseWriter.WriteHeader, ResponseWriter.Write]
  | decoded c =>
    rw [hb] at hany
    simp [course, validKey_ok API_key _ r rest hkey, hid, getBlock, deleteBlock, hm, hct,
      postBlock, putBlock, hb, hsnap, hany, Flow.andThen, Flow.result,
      ResponseWriter.WriteHeader, ResponseWriter.Write]

/-- C14, as the spec states it, fails. When the path identifier is not in the
snapshot and the body is complete but its Code is already in the store, the
insert is refused by the table: the handler ends in a panic, without a 201 and
without a new record. And when the body cannot be read, the answer is 422 also
for a path identifier that is a key of the snapshot. -/
theorem post_insert_refused :
    course plainPolicy "secret" ⟨[databases], []⟩
        (jsonRequest "POST" "secret" "7"
          (.decoded ⟨102, "Networks", "2025", "Dr. C", "Packets"⟩)) =
      ⟨⟨[databases], []⟩, ⟨none, []⟩, true⟩ ∧
    Snapshot.hasKey [(101, algorithms)] 101 = true ∧
    (course plainPolicy "secret" ⟨[algorithms], [(101, algorithms)]⟩
      (jsonRequest "POST" "secret" "101" .unreadable)).w.status = some 422 := by
  decide

/-- C14, amended: take a POST request with a valid key, an integer path
identifier, the JSON content type and a body that can be read, other than one
whose path identifier is not a key of the snapshot while its body has no empty
text field after `validateAndSanitize` and a Code that is already in the
store. The answer is 409, with the state unchanged, exactly when the path
identifier is a key of the snapshot, whatever the body and the store.
Otherwise it is 422, with the state unchanged, when a text field of the body
is empty after `validateAndSanitize`. Otherwise it is 201, one row keyed by
the body's Code is added at the end of the table and the snapshot is
unchanged. The policy is taken to return the empty string and digit strings
unchanged. -/
theorem post_outcome (pol : Policy) (API_key : String) (s : Server) (r : Request)
    (rest : List String) (code : Int)
    (hpol : pol.KeepsPlain)
    (hkey : queryGet r.query "key" = API_key :: rest)
    (hid : Atoi r.courseid = (code, true))
    (hm : r.Method = "POST")
    (hct : r.contentType = "application/json")
    (hbody : r.body ≠ .unreadable)
    (hrange : r.body.unmarshal.Code ≤ maxInt)
    (hdom : s.courses.hasKey code = false →
      anyEmpty (validateAndSanitize pol r.body.unmarshal).1 = false →
      RowExists s.db r.body.unmarshal.Code = false) :
    ((course pol API_key s r).w.status = some 409 ↔ s.courses.hasKey code = true) ∧
    (s.courses.hasKey code = true →
      course pol API_key s r = ⟨s, ⟨some 409, [.text "409 - Duplicate course ID"]⟩, false⟩) ∧
    (s.courses.hasKey code = false →
      anyEmpty (validateAndSanitize pol r.body.unmarshal).1 = true →
      course pol API_key s r =
        ⟨s, ⟨some 422, [.text "422 - Please supply courseinformation in JSON format"]⟩,
          false⟩) ∧
    (s.courses.hasKey code = false →
      anyEmpty (validateAndSanitize pol r.body.unmarshal).1 = false →
      course pol API_key s r =
        ⟨⟨s.db ++ [⟨r.body.unmarshal.Code,
            (validateAndSanitize pol r.body.unmarshal).1.Title,
            (validateAndSanitize pol r.body.unmarshal).1.Dates,
            (validateAndSanitize pol r.body.unmarshal).1.Lecturer,
            (validateAndSanitize pol r.body.unmarshal).1.Description⟩], s.courses⟩,
          ⟨some 201, [.text ("201 - Course added: " ++ r.courseid)]⟩, false⟩) := by
  have hcode := validateAndSanitize_Code pol hpol r.body.unmarshal hrange
  have h409 := post_known_result pol API_key s r rest code hkey hid hm hct hbody
  have h422 := post_incomplete_result pol API_key s r rest code hkey hid hm hct hbody
  have hins := post_fresh_result pol API_key s r rest code hkey hid hm hct hbody
  rw [hcode] at hins
  have h201 : s.courses.hasKey code = false →
      anyEmpty (validateAndSanitize pol r.body.unmarshal).1 = false →
      course pol API_key s r =
        ⟨⟨s.db ++ [⟨r.body.unmarshal.Code,
            (validateAndSanitize pol r.body.unmarshal).1.Title,
            (validateAndSanitize pol r.body.unmarshal).1.Dates,
            (validateAndSanitize pol r.body.unmarshal).1.Lecturer,
            (validateAndSanitize pol r.body.unmarshal).1.Description⟩], s.courses⟩,
          ⟨some 201, [.text ("201 - Course added: " ++ r.courseid)]⟩, false⟩ := by
    intro h1 h2
    rw [hins h1 h2, InsertRecord_fresh _ _ _ _ _ _ (hdom h1 h2)]
  refine ⟨?_, h409, h422, h201⟩
  constructor
  · intro hst
    by_contra hk
    have hk : s.courses.hasKey code = false := by simpa using hk
    cases hany : anyEmpty (validateAndSanitize pol r.body.unmarshal).1 with
    | true =>
      rw [h422 hk hany] at hst
      simp at hst
    | false =>
      rw [h201 hk hany] at hst
      simp at hst
  · intro hk
    rw [h409 hk]

/-- Witness of C14, amended: the POST of course 101 to an empty store. -/
theorem post_outcome_witness :
    course plainPolicy "secret" ⟨[], []⟩
        (jsonRequest "POST" "secret" "101" (.decoded algorithms)) =
      ⟨⟨[algorithms], []⟩, ⟨some 201, [.text "201 - Course added: 101"]⟩, false⟩ :=
  ((post_outcome plainPolicy "secret" ⟨[], []⟩
    (jsonRequest "POST" "secret" "101" (.decoded algorithms)) [] 101
    plainPolicy_KeepsPlain (by decide) (by decide) rfl rfl (by decide) (by decide)
    (fun _ _ => by decide)).2.2.2
    (by decide) (by decide)).trans (by decide)

end CourseAPI
